import Mathlib

/-!
Verification of the EduFunds-Grundschule resilience layer:
a shallow embedding of the storage service (API cache with TTL,
offline queue, sync timestamp, quota-recovering writes) and of the
throttled/retried Gemini fetch wrapper, together with theorems about
their behaviour.

The embedding follows the TypeScript source: the persisted localStorage
contents relevant to the claims are modelled as a typed state record
(the JSON (de)serialization round-trips values, so the mapping under
`edufunds_api_cache` becomes an association list of cache entries, the
array under `edufunds_offline_queue` a list of offline actions, and the
number under `edufunds_last_sync` an optional timestamp).  Each method
of `storageService` becomes a state-passing function.  Writes through
the reliable-store model always succeed and are counted in `writeCount`
so that frame conditions ("performs no write") are expressible; the
quota-exceeded path of `setItem` is modelled separately with an explicit
per-attempt outcome environment.
-/

namespace EduFunds

/-- A cache entry as persisted under `edufunds_api_cache`
(`interface CacheEntry<T> { data; timestamp; expiresAt }`). -/
structure CacheEntry (α : Type) where
  data : α
  timestamp : Int
  expiresAt : Int
  deriving Repr, DecidableEq

/-- An offline action as persisted under `edufunds_offline_queue`
(`interface OfflineAction { id; type; payload; timestamp }`). -/
structure OfflineAction (π : Type) where
  id : String
  type : String
  payload : π
  timestamp : Int
  deriving Repr, DecidableEq

/-- The persisted storage state relevant to the claims: the API cache
mapping (a JS object, so an association list with unique keys), the
offline queue array, and the last-sync timestamp.  `writeCount` counts
the number of physical `setItem` writes performed, so that "performs no
write" is a provable frame condition. -/
structure StorageState (α π : Type) where
  cache : List (String × CacheEntry α)
  queue : List (OfflineAction π)
  lastSync : Option Int
  writeCount : Nat
  deriving Repr, DecidableEq

variable {α π : Type}

/-- Model of `this.setItem(STORAGE_KEYS.API_CACHE, cache)` in the reliable-store
model: replace the persisted cache mapping, count one physical write. -/
def writeCache (c : List (String × CacheEntry α)) (s : StorageState α π) :
    StorageState α π :=
  { s with cache := c, writeCount := s.writeCount + 1 }

/-- Model of `this.setItem(STORAGE_KEYS.OFFLINE_QUEUE, q)` in the reliable-store
model. -/
def writeQueue (q : List (OfflineAction π)) (s : StorageState α π) :
    StorageState α π :=
  { s with queue := q, writeCount := s.writeCount + 1 }

/-- Model of `this.setItem(STORAGE_KEYS.LAST_SYNC, Date.now())`
(`updateLastSyncTime`). -/
def updateLastSyncTime (now : Int) (s : StorageState α π) :
    StorageState α π :=
  { s with lastSync := some now, writeCount := s.writeCount + 1 }

/-- Reading `cache[cacheKey]` on the deserialized JS object: property lookup. -/
def cacheLookup (cache : List (String × CacheEntry α)) (key : String) :
    Option (CacheEntry α) :=
  cache.lookup key

/-- Effect of `delete cache[cacheKey]` on the deserialized JS object: property
removal (JS object keys are unique, so this drops the binding). -/
def cacheDelete (cache : List (String × CacheEntry α)) (key : String) :
    List (String × CacheEntry α) :=
  cache.filter (fun p => p.1 ≠ key)

/-- Model of `storageService.getCachedResponse(cacheKey)` at current time `now`:
read the persisted mapping; absent key gives `null`; if
`Date.now() > entry.expiresAt` the entry is deleted, the reduced mapping
persisted, and `null` returned; otherwise `entry.data` is returned. -/
def getCachedResponse (now : Int) (key : String) (s : StorageState α π) :
    Option α × StorageState α π :=
  match cacheLookup s.cache key with
  | none => (none, s)
  | some entry =>
    if entry.expiresAt < now then
      (none, writeCache (cacheDelete s.cache key) s)
    else
      (some entry.data, s)

/-- Model of `storageService.clearExpiredCache()` at current time `now`: delete
every entry with `expiresAt < now`, count them, and persist the reduced
mapping only when at least one entry was removed. -/
def clearExpiredCache (now : Int) (s : StorageState α π) :
    Nat × StorageState α π :=
  let cleared := s.cache.countP (fun p => decide (p.2.expiresAt < now))
  let kept := s.cache.filter (fun p => ¬ p.2.expiresAt < now)
  if cleared > 0 then (cleared, writeCache kept s) else (cleared, s)

/-- Model of `storageService.setCachedResponse(cacheKey, data, duration)` at
current time `now`: `cache[cacheKey] = { data, timestamp: now,
expiresAt: now + duration }` then persist. -/
def setCachedResponse (now : Int) (key : String) (data : α)
    (duration : Int) (s : StorageState α π) : StorageState α π :=
  let entry : CacheEntry α :=
    { data := data, timestamp := now, expiresAt := now + duration }
  writeCache (cacheDelete s.cache key ++ [(key, entry)]) s

/-- Model of `storageService.queueOfflineAction(type, payload)` at current time
`now`: the id is `` `${Date.now()}-${Math.random()...}` `` (modelled by
the timestamp rendered to decimal followed by `-` and the random suffix
`rand`); the action is appended and the queue persisted; the boolean
result of `setItem` is discarded and the id returned unconditionally.
`persistOk` is the outcome of that discarded `setItem` (a failed write
leaves the stored queue unchanged). -/
def queueOfflineAction (type : String) (payload : π) (now : Int)
    (rand : String) (persistOk : Bool) (s : StorageState α π) :
    String × StorageState α π :=
  let id := toString now ++ "-" ++ rand
  let q := s.queue ++ [{ id := id, type := type, payload := payload,
                         timestamp := now }]
  (id, if persistOk then writeQueue q s else s)

/-- Model of `storageService.getOfflineQueue()`. -/
def getOfflineQueue (s : StorageState α π) : List (OfflineAction π) :=
  s.queue

/-- Model of `storageService.removeFromOfflineQueue(id)`: filter the persisted
queue by `action.id !== id`; if nothing was removed return `false`
without writing, otherwise persist the filtered queue and return the
(always-true, in the reliable-store model) result of `setItem`. -/
def removeFromOfflineQueue (id : String) (s : StorageState α π) :
    Bool × StorageState α π :=
  let filtered := s.queue.filter (fun a => a.id ≠ id)
  if filtered.length = s.queue.length then
    (false, s)
  else
    (true, writeQueue filtered s)

/-- The processor callback handed to `processOfflineQueue`:
`Except.ok b` models the returned promise resolving with `b`,
`Except.error ()` models it rejecting (the processor throwing). -/
abbrev Processor (π : Type) := OfflineAction π → Except Unit Bool

/-- Whether the processor reports success for an action: the promise
resolved with `true` (neither `false` nor a thrown error). -/
def succeeds (proc : Processor π) (a : OfflineAction π) : Bool :=
  match proc a with
  | .ok true => true
  | _ => false

/-- The `for (const action of queue)` loop of `processOfflineQueue`: on
`ok true` the action is removed from the persisted queue and the counter
incremented; on `ok false` or a thrown error the state is untouched and
draining continues with the next action.  Besides the counter and the
final state it returns, for observability, the list of actions the
processor was invoked on, in invocation order. -/
def drainLoop (proc : Processor π) :
    List (OfflineAction π) → StorageState α π → Nat →
    Nat × StorageState α π × List (OfflineAction π)
  | [], s, acc => (acc, s, [])
  | a :: rest, s, acc =>
    let r :=
      match proc a with
      | .ok true => drainLoop proc rest (removeFromOfflineQueue a.id s).2 (acc + 1)
      | _ => drainLoop proc rest s acc
    (r.1, r.2.1, a :: r.2.2)

/-- Model of `storageService.processOfflineQueue(processor)` at current time
`now`: snapshot the queue, run the drain loop, and update the last-sync
timestamp exactly when `processed > 0`. -/
def processOfflineQueue (proc : Processor π) (now : Int)
    (s : StorageState α π) : Nat × StorageState α π :=
  let r := drainLoop proc (getOfflineQueue s) s 0
  if r.1 > 0 then (r.1, updateLastSyncTime now r.2.1) else (r.1, r.2.1)

/-! ### The quota-recovering `setItem`

`storageService.setItem` interacts with the raw store through
`localStorage.setItem`, which can throw.  The outcome of each successive
raw write attempt during one `setItem` call is given by an environment
`outcome : Nat → WriteOutcome` (attempt 0 first). -/

/-- Outcome of one raw `localStorage.setItem` attempt: success, an
exception recognized as quota-exceeded (DOMException code 22/1014 or
name `QuotaExceededError`/`NS_ERROR_DOM_QUOTA_REACHED`), or any other
exception. -/
inductive WriteOutcome where
  | ok
  | quotaExceeded
  | otherError
  deriving Repr, DecidableEq

/-- Trace of one `storageService.setItem` call: its boolean result, how
many times `clearExpiredCache` was invoked, and how many raw write
attempts were made. -/
structure SetItemTrace where
  success : Bool
  evictions : Nat
  attempts : Nat
  deriving Repr, DecidableEq

/-- Model of `storageService.setItem(key, value)` with availability flag
`available` (the `isAvailable()` probe) and per-attempt raw outcomes
`outcome`: mirror of the try/catch structure — on a quota-exceeded
exception clear expired cache once and retry exactly once, any second
exception yields `false`; a non-quota exception yields `false` with no
eviction and no retry. -/
def setItem (available : Bool) (outcome : Nat → WriteOutcome) :
    SetItemTrace :=
  if ¬ available then
    { success := false, evictions := 0, attempts := 0 }
  else
    match outcome 0 with
    | .ok => { success := true, evictions := 0, attempts := 1 }
    | .quotaExceeded =>
      match outcome 1 with
      | .ok => { success := true, evictions := 1, attempts := 2 }
      | _ => { success := false, evictions := 1, attempts := 2 }
    | .otherError => { success := false, evictions := 0, attempts := 1 }

/-! ### The throttled, retried Gemini fetch

`throttledGeminiFetch` wraps a `fetch` in `pRetry` (3 retries, so up to
4 attempts) and treats status 429 as a retryable error; any other
non-2xx response is wrapped into an error carrying the status and the
parsed body (an empty object when `response.json()` rejects). -/

/-- A parsed JSON value, as produced by `response.json()`.  Only its
identity matters to the claims; `emptyObj` is the `{}` substituted by
`.catch(() => ({}))` when the body fails to parse. -/
inductive JVal where
  | emptyObj
  | jstr (s : String)
  | jnum (n : Int)
  deriving Repr, DecidableEq

/-- A fetch response: its HTTP status and its body as parsed JSON
(`none` models `response.json()` rejecting). -/
structure HttpResponse where
  status : Nat
  body : Option JVal
  deriving Repr, DecidableEq

/-- Model of `response.ok`: status in the 2xx range. -/
def respOk (r : HttpResponse) : Bool :=
  200 ≤ r.status ∧ r.status ≤ 299

/-- The error thrown by one fetch attempt: `rateLimit` is the
`Error('Rate limit exceeded')` thrown on status 429; `api status body`
is the `` Error(`API Error ${status}: ${JSON.stringify(errorData)}`) ``
thrown on any other non-ok response, carrying the status and the parsed
body. -/
inductive FetchError where
  | rateLimit
  | api (status : Nat) (body : JVal)
  deriving Repr, DecidableEq

/-- The status recoverable from a thrown fetch error. -/
def FetchError.statusOf : FetchError → Option Nat
  | .rateLimit => none
  | .api s _ => some s

/-- The parsed body recoverable from a thrown fetch error. -/
def FetchError.bodyOf : FetchError → Option JVal
  | .rateLimit => none
  | .api _ b => some b

/-- The body of the async closure passed to `pRetry`, evaluated on the
response `r` this attempt's `fetch` resolved with: throw on 429, wrap
and throw on any other non-ok response (substituting `{}` for an
unparsable body), return the response otherwise. -/
def fetchAttempt (r : HttpResponse) : Except FetchError HttpResponse :=
  if r.status = 429 then
    .error .rateLimit
  else if ¬ respOk r then
    .error (.api r.status (r.body.getD .emptyObj))
  else
    .ok r

/-- Model of `pRetry(fn, { retries, onFailedAttempt })`: run `f` on successive
attempt indices; each failure invokes `onFailedAttempt` (counted in the
second component) and, while retries remain, the next attempt follows;
once retries are exhausted the last error is rethrown.  The third
component counts the attempts made. -/
def pRetryRun (f : Nat → Except FetchError HttpResponse) :
    Nat → Nat → Except FetchError HttpResponse × Nat × Nat
  | idx, retriesLeft =>
    match f idx, retriesLeft with
    | .ok a, _ => (.ok a, 0, 1)
    | .error e, 0 => (.error e, 1, 1)
    | .error _, r + 1 =>
      let t := pRetryRun f (idx + 1) r
      (t.1, t.2.1 + 1, t.2.2 + 1)

/-- The retry budget of `throttledGeminiFetch`: `retries: 3`. -/
def geminiRetries : Nat := 3

/-- One call through `throttledGeminiFetch`, with `responses i` the
response the `i`-th underlying `fetch` resolves with: `pRetry` around
`fetchAttempt` with the default budget of 3 retries.  Returns the
settled result, the number of `onFailedAttempt` invocations, and the
number of fetch attempts made. -/
def throttledGeminiFetch (responses : Nat → HttpResponse) :
    Except FetchError HttpResponse × Nat × Nat :=
  pRetryRun (fun i => fetchAttempt (responses i)) 0 geminiRetries

/-! ### Concrete fixtures used by witnesses and counterexamples -/

/-- A storage state holding one cache entry `"k"` with payload `42`
expiring at time `100`. -/
def cacheState : StorageState Nat Unit :=
  { cache := [("k", { data := 42, timestamp := 0, expiresAt := 100 })],
    queue := [], lastSync := none, writeCount := 0 }

/-- Offline action `A` of the drain scenario. -/
def actA : OfflineAction Nat := { id := "a", type := "t", payload := 0, timestamp := 1 }

/-- Offline action `B` of the drain scenario. -/
def actB : OfflineAction Nat := { id := "b", type := "t", payload := 1, timestamp := 2 }

/-- Offline action `C` of the drain scenario. -/
def actC : OfflineAction Nat := { id := "c", type := "t", payload := 2, timestamp := 3 }

/-- A storage state whose offline queue is `[A, B, C]`. -/
def queueState : StorageState Nat Nat :=
  { cache := [], queue := [actA, actB, actC], lastSync := none,
    writeCount := 0 }

/-- A processor that throws on action `B` and succeeds elsewhere. -/
def procB : Processor Nat := fun a =>
  if a.id = "b" then .error () else .ok true

/-- A processor whose promise always resolves `false`. -/
def procNone : Processor Nat := fun _ => .ok false

/-- Raw-write outcomes: quota-exceeded on the first attempt, success on
the retry. -/
def outcomeQuotaThenOk : Nat → WriteOutcome := fun i =>
  if i = 0 then .quotaExceeded else .ok

/-- Raw-write outcomes: every attempt throws quota-exceeded. -/
def outcomeQuotaAlways : Nat → WriteOutcome := fun _ => .quotaExceeded

/-- Raw-write outcomes: a non-quota exception on the first attempt. -/
def outcomeOther : Nat → WriteOutcome := fun _ => .otherError

/-- Fetch responses: 429 on the first two attempts, 200 on the third. -/
def responses429Twice : Nat → HttpResponse := fun i =>
  if i < 2 then { status := 429, body := none }
  else { status := 200, body := some (.jstr "ok") }

/-- Fetch responses: every attempt yields HTTP 500 with parsed body
`"boom"`. -/
def responses500 : Nat → HttpResponse := fun _ =>
  { status := 500, body := some (.jstr "boom") }

end EduFunds

namespace EduFunds

/-! ### Helper lemmas -/

theorem lookup_cacheDelete {α : Type} (c : List (String × CacheEntry α))
    (key : String) : cacheLookup (cacheDelete c key) key = none := by
  unfold cacheLookup cacheDelete
  induction c with
  | nil => rfl
  | cons p rest ih =>
    rw [List.filter_cons]
    by_cases h : p.1 = key
    · rw [if_neg (by simp [h])]
      exact ih
    · rw [if_pos (by simp [h])]
      cases p with
      | mk k v =>
        rw [List.lookup_cons]
        have hb : (key == k) = false := beq_false_of_ne (Ne.symm h)
        simp only [hb]
        exact ih

/-! ### Claim C1 -/

/-- C1, counterexample: the claim says a lookup at `now = expiresAt`
(so `now ≥ expiresAt`) returns absent and deletes the entry; on the
state `cacheState` (entry expiring at `100`) a lookup at time `100`
returns the payload `42` and leaves the state untouched, entry
included. -/
theorem getCachedResponse_at_expiry_counterexample :
    (100 : Int) ≥ 100 ∧
    (getCachedResponse 100 "k" cacheState).1 = some 42 ∧
    (getCachedResponse 100 "k" cacheState).2 = cacheState := by
  refine ⟨le_refl _, ?_, ?_⟩ <;> rfl

/-- C1, amended: for a cache key bound to an entry, `getCachedResponse`
returns the stored payload (and leaves the state unchanged) whenever
`now ≤ expiresAt`, and for `now > expiresAt` it returns absent and
physically deletes the entry, so a raw read of the persisted mapping no
longer contains the key. -/
theorem getCachedResponse_ttl {α π : Type} (now : Int) (key : String)
    (s : StorageState α π) (e : CacheEntry α)
    (hlook : cacheLookup s.cache key = some e) :
    (now ≤ e.expiresAt → getCachedResponse now key s = (some e.data, s)) ∧
    (e.expiresAt < now →
      (getCachedResponse now key s).1 = none ∧
      cacheLookup (getCachedResponse now key s).2.cache key = none) := by
  constructor
  · intro h
    unfold getCachedResponse
    rw [hlook]
    simp [not_lt.mpr h]
  · intro h
    unfold getCachedResponse
    rw [hlook]
    simp [h, writeCache, lookup_cacheDelete]

/-- C1, witness: on `cacheState` (entry expiring at `100`), a lookup at
time `100` yields the payload with the state unchanged, and a lookup at
time `101` yields absent with the key gone from the persisted mapping. -/
theorem getCachedResponse_ttl_witness :
    (getCachedResponse 100 "k" cacheState = (some 42, cacheState)) ∧
    ((getCachedResponse 101 "k" cacheState).1 = none ∧
     cacheLookup (getCachedResponse 101 "k" cacheState).2.cache "k"
       = none) := by
  have h1 := getCachedResponse_ttl 100 "k" cacheState
    { data := 42, timestamp := 0, expiresAt := 100 } (by rfl)
  have h2 := getCachedResponse_ttl 101 "k" cacheState
    { data := 42, timestamp := 0, expiresAt := 100 } (by rfl)
  exact ⟨h1.1 (by decide), h2.2 (by decide)⟩

/-! ### Helper lemmas about the offline queue -/

theorem removeFromOfflineQueue_frame {α π : Type} (id : String)
    (s : StorageState α π) :
    (removeFromOfflineQueue id s).2.cache = s.cache ∧
    (removeFromOfflineQueue id s).2.lastSync = s.lastSync := by
  unfold removeFromOfflineQueue writeQueue
  dsimp only
  split <;> simp

theorem removeFromOfflineQueue_present {α π : Type} (a : OfflineAction π)
    (done rest : List (OfflineAction π)) (s : StorageState α π)
    (hq : s.queue = done ++ a :: rest)
    (hdone : ∀ x ∈ done, x.id ≠ a.id)
    (hrest : ∀ x ∈ rest, x.id ≠ a.id) :
    removeFromOfflineQueue a.id s = (true, writeQueue (done ++ rest) s) ∧
    s.queue.filter (fun x => x.id ≠ a.id) = done ++ rest := by
  have hfilt : s.queue.filter (fun x => x.id ≠ a.id) = done ++ rest := by
    rw [hq, List.filter_append, List.filter_cons]
    rw [if_neg (by simp)]
    congr 1
    · exact List.filter_eq_self.mpr (fun x hx => by simpa using hdone x hx)
    · exact List.filter_eq_self.mpr (fun x hx => by simpa using hrest x hx)
  refine ⟨?_, hfilt⟩
  unfold removeFromOfflineQueue
  rw [hfilt]
  rw [if_neg]
  rw [hq]
  simp

theorem removeFromOfflineQueue_absent {α π : Type} (id : String)
    (s : StorageState α π) (h : ∀ x ∈ s.queue, x.id ≠ id) :
    removeFromOfflineQueue id s = (false, s) := by
  have hfilt : s.queue.filter (fun x => x.id ≠ id) = s.queue :=
    List.filter_eq_self.mpr (fun x hx => by simpa using h x hx)
  unfold removeFromOfflineQueue
  rw [hfilt, if_pos rfl]

/-- Specification of the drain loop: for a snapshot `l` whose ids,
together with those of the already-scanned prefix `done`, are pairwise
distinct, and a state whose persisted queue is `done ++ l`, the loop
removes precisely the successful actions of `l` from the queue,
counts them, invokes the processor on every snapshot action in order,
and leaves the last-sync timestamp and the cache untouched. -/
theorem drainLoop_spec {α π : Type} (proc : Processor π) :
    ∀ (l done : List (OfflineAction π)) (s : StorageState α π) (acc : Nat),
      s.queue = done ++ l →
      ((done ++ l).map OfflineAction.id).Nodup →
      (drainLoop proc l s acc).1 = acc + l.countP (succeeds proc) ∧
      (drainLoop proc l s acc).2.1.queue
        = done ++ l.filter (fun a => ! succeeds proc a) ∧
      (drainLoop proc l s acc).2.2 = l ∧
      (drainLoop proc l s acc).2.1.lastSync = s.lastSync ∧
      (drainLoop proc l s acc).2.1.cache = s.cache := by
  intro l
  induction l with
  | nil =>
    intro done s acc hq _
    simp [drainLoop, hq]
  | cons a rest ih =>
    intro done s acc hq hnd
    have hnd' := hnd
    rw [List.map_append, List.map_cons] at hnd'
    have hdisj := (List.nodup_append.mp hnd').2.2
    have hhead := ((List.nodup_cons).mp (List.nodup_append.mp hnd').2.1).1
    have hdone : ∀ x ∈ done, x.id ≠ a.id := by
      intro x hx hcontra
      exact hdisj (List.mem_map_of_mem OfflineAction.id hx)
        (by rw [hcontra]; exact List.mem_cons_self _ _)
    have hrest : ∀ x ∈ rest, x.id ≠ a.id := by
      intro x hx hcontra
      exact hhead (hcontra ▸ List.mem_map_of_mem OfflineAction.id hx)
    rcases hpa : proc a with e | b
    · -- the processor throws on `a`: state untouched
      have hsp : succeeds proc a = false := by simp [succeeds, hpa]
      have hq' : s.queue = (done ++ [a]) ++ rest := by
        rw [hq]; simp
      have hnd2 : (((done ++ [a]) ++ rest).map OfflineAction.id).Nodup := by
        simpa using hnd
      have hrec := ih (done ++ [a]) s acc hq' hnd2
      simp only [drainLoop, hpa]
      refine ⟨?_, ?_, ?_, ?_, ?_⟩
      · rw [hrec.1, List.countP_cons]
        simp [hsp]
      · rw [hrec.2.1, List.filter_cons]
        simp [hsp]
      · rw [hrec.2.2.1]
      · exact hrec.2.2.2.1
      · exact hrec.2.2.2.2
    · rcases b with _ | _
      · -- the processor resolves `false` on `a`: state untouched
        have hsp : succeeds proc a = false := by simp [succeeds, hpa]
        have hq' : s.queue = (done ++ [a]) ++ rest := by
          rw [hq]; simp
        have hnd2 : (((done ++ [a]) ++ rest).map OfflineAction.id).Nodup := by
          simpa using hnd
        have hrec := ih (done ++ [a]) s acc hq' hnd2
        simp only [drainLoop, hpa]
        refine ⟨?_, ?_, ?_, ?_, ?_⟩
        · rw [hrec.1, List.countP_cons]
          simp [hsp]
        · rw [hrec.2.1, List.filter_cons]
          simp [hsp]
        · rw [hrec.2.2.1]
        · exact hrec.2.2.2.1
        · exact hrec.2.2.2.2
      · -- the processor resolves `true` on `a`: `a` is removed
        have hsp : succeeds proc a = true := by simp [succeeds, hpa]
        have hrem := (removeFromOfflineQueue_present a done rest s hq hdone hrest).1
        have hq' : (removeFromOfflineQueue a.id s).2.queue = done ++ rest := by
          rw [hrem]; simp [writeQueue]
        have hnd2 : ((done ++ rest).map OfflineAction.id).Nodup := by
          refine List.Nodup.sublist (List.Sublist.map _ ?_) hnd
          exact List.Sublist.append (List.Sublist.refl done)
            (List.sublist_cons_self a rest)
        have hrec := ih done (removeFromOfflineQueue a.id s).2 (acc + 1) hq' hnd2
        have hls : (removeFromOfflineQueue a.id s).2.lastSync = s.lastSync :=
          (removeFromOfflineQueue_frame a.id s).2
        have hca : (removeFromOfflineQueue a.id s).2.cache = s.cache :=
          (removeFromOfflineQueue_frame a.id s).1
        simp only [drainLoop, hpa]
        refine ⟨?_, ?_, ?_, ?_, ?_⟩
        · rw [hrec.1, List.countP_cons]
          simp [hsp]
          omega
        · rw [hrec.2.1, List.filter_cons]
          simp [hsp]
        · rw [hrec.2.2.1]
        · rw [hrec.2.2.2.1, hls]
        · rw [hrec.2.2.2.2, hca]

theorem drainLoop_count_lastSync {α π : Type} (proc : Processor π) :
    ∀ (l : List (OfflineAction π)) (s : StorageState α π) (acc : Nat),
      (drainLoop proc l s acc).1 = acc + l.countP (succeeds proc) ∧
      (drainLoop proc l s acc).2.1.lastSync = s.lastSync := by
  intro l
  induction l with
  | nil =>
    intro s acc
    simp [drainLoop]
  | cons a rest ih =>
    intro s acc
    rcases hpa : proc a with e | b
    · have hsp : succeeds proc a = false := by simp [succeeds, hpa]
      have hrec := ih s acc
      simp only [drainLoop, hpa]
      refine ⟨?_, hrec.2⟩
      rw [hrec.1, List.countP_cons]
      simp [hsp]
    · rcases b with _ | _
      · have hsp : succeeds proc a = false := by simp [succeeds, hpa]
        have hrec := ih s acc
        simp only [drainLoop, hpa]
        refine ⟨?_, hrec.2⟩
        rw [hrec.1, List.countP_cons]
        simp [hsp]
      · have hsp : succeeds proc a = true := by simp [succeeds, hpa]
        have hrec := ih (removeFromOfflineQueue a.id s).2 (acc + 1)
        have hls : (removeFromOfflineQueue a.id s).2.lastSync = s.lastSync :=
          (removeFromOfflineQueue_frame a.id s).2
        simp only [drainLoop, hpa]
        refine ⟨?_, by rw [hrec.2, hls]⟩
        rw [hrec.1, List.countP_cons]
        simp [hsp]
        omega

theorem countP_add_length_filter_not {β : Type} (p : β → Bool)
    (l : List β) :
    l.countP p + (l.filter (fun a => ! p a)).length = l.length := by
  induction l with
  | nil => rfl
  | cons a rest ih =>
    rw [List.countP_cons, List.filter_cons]
    cases h : p a <;> simp [h] <;> omega

/-! ### Claim C2 -/

/-- C2: a drain invokes the processor on every snapshotted action in
FIFO order; exactly the successful actions are removed from the
persisted queue, the failing ones (resolved `false` or thrown) keep
their original relative positions; the returned count equals both the
number of successes and the number of removed actions.  (`drainLoop`
and `processOfflineQueue` are total Lean functions, so the drain never
throws.) -/
theorem processOfflineQueue_drain {α π : Type} (proc : Processor π)
    (now : Int) (s : StorageState α π)
    (hnd : (s.queue.map OfflineAction.id).Nodup) :
    ((processOfflineQueue proc now s).2.queue
        = s.queue.filter (fun a => ! succeeds proc a)) ∧
    ((processOfflineQueue proc now s).1
        = s.queue.countP (succeeds proc)) ∧
    ((processOfflineQueue proc now s).1
        + (processOfflineQueue proc now s).2.queue.length
        = s.queue.length) ∧
    ((drainLoop proc (getOfflineQueue s) s 0).2.2 = getOfflineQueue s) := by
  have h := drainLoop_spec proc s.queue [] s 0 (by simp) (by simpa using hnd)
  have hqueue : (processOfflineQueue proc now s).2.queue
      = s.queue.filter (fun a => ! succeeds proc a) := by
    unfold processOfflineQueue
    dsimp only
    split
    · simpa [updateLastSyncTime] using h.2.1
    · simpa using h.2.1
  have hcount : (processOfflineQueue proc now s).1
      = s.queue.countP (succeeds proc) := by
    unfold processOfflineQueue
    dsimp only
    split <;> simpa using h.1
  refine ⟨hqueue, hcount, ?_, by simpa using h.2.2.1⟩
  rw [hqueue, hcount]
  exact countP_add_length_filter_not (succeeds proc) s.queue

/-- C2, witness: draining the queue `[A, B, C]` with a processor that
throws exactly on `B` reports 2 processed actions and leaves exactly
`B` in the persisted queue. -/
theorem processOfflineQueue_drain_witness :
    (processOfflineQueue procB 500 queueState).1 = 2 ∧
    (processOfflineQueue procB 500 queueState).2.queue = [actB] := by
  have h := processOfflineQueue_drain procB 500 queueState (by decide)
  constructor
  · rw [h.2.1]
    decide
  · rw [h.1]
    decide

/-! ### Claim C6 -/

theorem removeFromOfflineQueue_twice {α π : Type} (id : String)
    (s : StorageState α π) :
    removeFromOfflineQueue id (removeFromOfflineQueue id s).2
      = (false, (removeFromOfflineQueue id s).2) := by
  apply removeFromOfflineQueue_absent
  intro x hx hcontra
  revert hx
  unfold removeFromOfflineQueue
  dsimp only
  split
  · intro hx
    rename_i hlen
    have hall := List.filter_length_eq_length.mp hlen x hx
    simp [hcontra] at hall
  · intro hx
    have hx' : x ∈ s.queue ∧ ¬ x.id = id := by simpa [writeQueue] using hx
    exact hx'.2 hcontra

/-- C6: with pairwise-distinct action ids, `removeFromOfflineQueue id`
removes exactly the one matching action (the queue shrinks by one and
becomes the id-filtered original, preserving the order of the rest) and
returns `true`; when no action matches it returns `false` and leaves
the state untouched; and a second call with the same id always returns
`false` and changes nothing, so removal is idempotent. -/
theorem removeFromOfflineQueue_spec {α π : Type} (id : String)
    (s : StorageState α π)
    (hnd : (s.queue.map OfflineAction.id).Nodup) :
    ((∃ a ∈ s.queue, a.id = id) →
        (removeFromOfflineQueue id s).1 = true ∧
        (removeFromOfflineQueue id s).2.queue
          = s.queue.filter (fun x => x.id ≠ id) ∧
        (removeFromOfflineQueue id s).2.queue.length + 1
          = s.queue.length) ∧
    ((∀ a ∈ s.queue, a.id ≠ id) → removeFromOfflineQueue id s = (false, s)) ∧
    (removeFromOfflineQueue id (removeFromOfflineQueue id s).2
        = (false, (removeFromOfflineQueue id s).2)) := by
  refine ⟨?_, removeFromOfflineQueue_absent id s, removeFromOfflineQueue_twice id s⟩
  rintro ⟨a, ha, hid⟩
  obtain ⟨done, rest, hq⟩ := List.append_of_mem ha
  have hnd' := hnd
  rw [hq, List.map_append, List.map_cons] at hnd'
  have hdisj := (List.nodup_append.mp hnd').2.2
  have hhead := ((List.nodup_cons).mp (List.nodup_append.mp hnd').2.1).1
  have hdone : ∀ x ∈ done, x.id ≠ a.id := by
    intro x hx hcontra
    exact hdisj (List.mem_map_of_mem OfflineAction.id hx)
      (by rw [hcontra]; exact List.mem_cons_self _ _)
  have hrest : ∀ x ∈ rest, x.id ≠ a.id := by
    intro x hx hcontra
    exact hhead (hcontra ▸ List.mem_map_of_mem OfflineAction.id hx)
  have hp := removeFromOfflineQueue_present a done rest s hq hdone hrest
  rw [← hid]
  refine ⟨by rw [hp.1], ?_, ?_⟩
  · rw [hp.1, hp.2]
    simp [writeQueue]
  · rw [hp.1]
    simp [writeQueue, hq]
    omega

/-- C6, witness: on the queue `[A, B, C]`, removing `"b"` succeeds and
leaves `[A, C]`; removing an absent id `"z"` is a no-op returning
`false`; and removing `"b"` a second time returns `false` and changes
nothing. -/
theorem removeFromOfflineQueue_spec_witness :
    (removeFromOfflineQueue "b" queueState).1 = true ∧
    (removeFromOfflineQueue "b" queueState).2.queue = [actA, actC] ∧
    removeFromOfflineQueue "z" queueState = (false, queueState) ∧
    removeFromOfflineQueue "b" (removeFromOfflineQueue "b" queueState).2
      = (false, (removeFromOfflineQueue "b" queueState).2) := by
  have h := removeFromOfflineQueue_spec "b" queueState (by decide)
  have hz := removeFromOfflineQueue_spec "z" queueState (by decide)
  have hb := h.1 ⟨actB, by decide, by decide⟩
  refine ⟨hb.1, ?_, hz.2.1 (by decide), h.2.2⟩
  rw [hb.2.1]
  decide

/-! ### Claim C7 -/

/-- C7: a drain updates the persisted last-sync timestamp to `now`
exactly when at least one queued action was successfully processed
(the processor resolved `true`); a drain in which every action fails,
and any drain of an empty queue, leaves the timestamp unchanged. -/
theorem processOfflineQueue_lastSync {α π : Type} (proc : Processor π)
    (now : Int) (s : StorageState α π) :
    (processOfflineQueue proc now s).2.lastSync
      = if 0 < s.queue.countP (succeeds proc) then some now
        else s.lastSync := by
  have h := drainLoop_count_lastSync proc s.queue s 0
  unfold processOfflineQueue getOfflineQueue
  dsimp only
  split
  · rename_i hpos
    rw [h.1] at hpos
    rw [if_pos (by omega)]
    simp [updateLastSyncTime]
  · rename_i hpos
    rw [h.1] at hpos
    rw [if_neg (by omega)]
    exact h.2

/-! ### Claim C3 -/

/-- C3: when the first raw write throws a quota-exceeded exception,
`setItem` evicts expired cache entries exactly once and retries the
write exactly once (two raw attempts in total); the retried write
succeeding yields `true`, its throwing again yields `false`; a
non-quota failure yields `false` with no eviction and no retry.
(`setItem` is a total Lean function, so no exception propagates.) -/
theorem setItem_quota_recovery (outcome : Nat → WriteOutcome) :
    (outcome 0 = .quotaExceeded →
        (setItem true outcome).evictions = 1 ∧
        (setItem true outcome).attempts = 2 ∧
        ((setItem true outcome).success = true ↔ outcome 1 = .ok)) ∧
    (outcome 0 = .otherError →
        setItem true outcome
          = { success := false, evictions := 0, attempts := 1 }) := by
  constructor
  · intro h0
    cases h1 : outcome 1 <;> simp [setItem, h0, h1]
  · intro h0
    simp [setItem, h0]

/-- C3, witness: quota on the first attempt with a successful retry
yields overall success after one eviction and two attempts; quota on
both attempts yields failure; a non-quota failure yields failure with
no eviction and a single attempt. -/
theorem setItem_quota_recovery_witness :
    (setItem true outcomeQuotaThenOk).success = true ∧
    (setItem true outcomeQuotaThenOk).evictions = 1 ∧
    (setItem true outcomeQuotaThenOk).attempts = 2 ∧
    (setItem true outcomeQuotaAlways).success = false ∧
    (setItem true outcomeQuotaAlways).evictions = 1 ∧
    setItem true outcomeOther
      = { success := false, evictions := 0, attempts := 1 } := by
  have h1 := setItem_quota_recovery outcomeQuotaThenOk
  have h2 := setItem_quota_recovery outcomeQuotaAlways
  have h3 := setItem_quota_recovery outcomeOther
  have q1 := h1.1 (by decide)
  have q2 := h2.1 (by decide)
  have hfail : (setItem true outcomeQuotaAlways).success = false := by
    cases hs : (setItem true outcomeQuotaAlways).success
    · rfl
    · exact absurd (q2.2.2.mp hs) (by decide)
  exact ⟨q1.2.2.mpr (by decide), q1.1, q1.2.1, hfail, q2.1, h3.2 (by decide)⟩

/-! ### Claim C9 -/

/-- C9: `queueOfflineAction` returns the freshly generated id — the
enqueue timestamp rendered to decimal, a dash, and the random suffix —
which is never empty; the id it returns does not depend on whether the
discarded persistence write succeeded, so the caller cannot detect a
persistence failure from the return value. -/
theorem queueOfflineAction_id {α π : Type} (type : String) (payload : π)
    (now : Int) (rand : String) (persistOk : Bool)
    (s : StorageState α π) :
    (queueOfflineAction (α := α) type payload now rand persistOk s).1
        = toString now ++ "-" ++ rand ∧
    (queueOfflineAction (α := α) type payload now rand persistOk s).1
        ≠ "" ∧
    (queueOfflineAction (α := α) type payload now rand persistOk s).1
        = (queueOfflineAction (α := α) type payload now rand true s).1 := by
  refine ⟨rfl, ?_, rfl⟩
  intro hcontra
  have hlen := congrArg String.length hcontra
  simp [queueOfflineAction, String.length_append] at hlen
  exact absurd hlen.1.2 (by decide)

/-! ### Claim C10 -/

/-- C10: when no cache entry is expired (every `expiresAt` is at least
`now`), `clearExpiredCache` returns 0 and performs no write, leaving
the entire state — cache mapping, queue, last-sync, write count —
unchanged; it writes the reduced mapping back (exactly one write)
precisely when at least one entry was removed, leaving the other stored
keys unchanged; the count returned is the number of entries with
`expiresAt < now`; and an entry with `expiresAt` exactly equal to `now`
is never removed. -/
theorem clearExpiredCache_spec {α π : Type} (now : Int)
    (s : StorageState α π) :
    ((∀ p ∈ s.cache, now ≤ p.2.expiresAt) →
        clearExpiredCache now s = (0, s)) ∧
    (0 < (clearExpiredCache now s).1 →
        (clearExpiredCache now s).2.cache
          = s.cache.filter (fun p => ¬ p.2.expiresAt < now) ∧
        (clearExpiredCache now s).2.writeCount = s.writeCount + 1 ∧
        (clearExpiredCache now s).2.queue = s.queue ∧
        (clearExpiredCache now s).2.lastSync = s.lastSync) ∧
    ((clearExpiredCache now s).1
        = s.cache.countP (fun p => decide (p.2.expiresAt < now))) ∧
    (∀ k (e : CacheEntry α), (k, e) ∈ s.cache → e.expiresAt = now →
        (k, e) ∈ (clearExpiredCache now s).2.cache) := by
  have hcount : (clearExpiredCache now s).1
      = s.cache.countP (fun p => decide (p.2.expiresAt < now)) := by
    unfold clearExpiredCache
    dsimp only
    split <;> rfl
  refine ⟨?_, ?_, hcount, ?_⟩
  · intro hall
    have hzero : s.cache.countP (fun p => decide (p.2.expiresAt < now)) = 0 := by
      rw [List.countP_eq_zero]
      intro p hp
      simpa using not_lt.mpr (hall p hp)
    unfold clearExpiredCache
    dsimp only
    rw [if_neg (by omega)]
    rw [hzero]
  · intro hpos
    rw [hcount] at hpos
    unfold clearExpiredCache
    dsimp only
    rw [if_pos hpos]
    simp [writeCache]
  · intro k e hke hexp
    unfold clearExpiredCache
    dsimp only
    split
    · simp only [writeCache]
      refine List.mem_filter.mpr ⟨hke, ?_⟩
      simp [hexp]
    · exact hke

/-- C10, witness: on `cacheState` (single entry expiring at `100`), a
purge at time `100` returns 0 and leaves the state — entry included —
untouched, while a purge at time `101` removes the entry, with exactly
one write back. -/
theorem clearExpiredCache_spec_witness :
    clearExpiredCache 100 cacheState = (0, cacheState) ∧
    ("k", ({ data := 42, timestamp := 0, expiresAt := 100 } : CacheEntry Nat))
        ∈ (clearExpiredCache 100 cacheState).2.cache ∧
    (clearExpiredCache 101 cacheState).1 = 1 ∧
    (clearExpiredCache 101 cacheState).2.cache = [] ∧
    (clearExpiredCache 101 cacheState).2.writeCount = 1 := by
  have h0 := clearExpiredCache_spec 100 cacheState
  have h1 := clearExpiredCache_spec 101 cacheState
  have hpos : 0 < (clearExpiredCache 101 cacheState).1 := by
    rw [h1.2.2.1]
    decide
  refine ⟨h0.1 (by decide), h0.2.2.2 "k" _ (by decide) (by decide),
    ?_, ?_, ?_⟩
  · rw [h1.2.2.1]
    decide
  · rw [(h1.2.1 hpos).1]
    decide
  · rw [(h1.2.1 hpos).2.1]
    decide

/-! ### Helper lemmas about the retrying transport -/

theorem pRetryRun_attempts_le (f : Nat → Except FetchError HttpResponse) :
    ∀ (r idx : Nat), (pRetryRun f idx r).2.2 ≤ r + 1 := by
  intro r
  induction r with
  | zero =>
    intro idx
    unfold pRetryRun
    cases f idx <;> simp
  | succ n ih =>
    intro idx
    unfold pRetryRun
    cases f idx with
    | ok a => simp
    | error e =>
      have := ih (idx + 1)
      simp
      omega

/-! ### Claim C4 -/

/-- C4: a 429 response makes the attempt throw a retryable error rather
than return or surface a terminal error; the retry budget is bounded
(3 retries, so never more than 4 underlying attempts); and when the
underlying call yields 429 on the first two attempts and a success on
the third, the transport resolves with that success after exactly two
failed-attempt callback invocations. -/
theorem throttledGeminiFetch_retry (responses : Nat → HttpResponse) :
    (∀ r : HttpResponse, r.status = 429 →
        fetchAttempt r = .error .rateLimit) ∧
    ((throttledGeminiFetch responses).2.2 ≤ geminiRetries + 1) ∧
    ((responses 0).status = 429 → (responses 1).status = 429 →
     respOk (responses 2) = true →
        throttledGeminiFetch responses = (.ok (responses 2), 2, 3)) := by
  refine ⟨?_, pRetryRun_attempts_le _ geminiRetries 0, ?_⟩
  · intro r h
    simp [fetchAttempt, h]
  · intro h0 h1 h2
    have ha0 : fetchAttempt (responses 0) = .error .rateLimit := by
      simp [fetchAttempt, h0]
    have ha1 : fetchAttempt (responses 1) = .error .rateLimit := by
      simp [fetchAttempt, h1]
    have hle : (responses 2).status ≤ 299 := (of_decide_eq_true h2).2
    have hne : ¬ (responses 2).status = 429 := by omega
    have ha2 : fetchAttempt (responses 2) = .ok (responses 2) := by
      simp [fetchAttempt, hne, h2]
    unfold throttledGeminiFetch geminiRetries
    simp [pRetryRun, ha0, ha1, ha2]

/-- C4, witness: with 429 on the first two attempts and HTTP 200 on the
third, the transport resolves with the 200 response after exactly two
failed-attempt callbacks and three attempts. -/
theorem throttledGeminiFetch_retry_witness :
    fetchAttempt { status := 429, body := none }
        = .error .rateLimit ∧
    throttledGeminiFetch responses429Twice
        = (.ok { status := 200, body := some (.jstr "ok") }, 2, 3) := by
  have h := throttledGeminiFetch_retry responses429Twice
  refine ⟨h.1 _ rfl, ?_⟩
  have hres := h.2.2 (by decide) (by decide) (by decide)
  rw [hres]
  rfl

/-! ### Claim C8 -/

/-- C8: a non-success response not consumed as retryable (status not
429, not 2xx) makes the attempt throw an error carrying the response's
status and its parsed body — the empty object standing in when the body
fails to parse — and both are recoverable from the error; the
error-constructing attempt is a total Lean function, so constructing
the error never itself throws; and once the retry budget is exhausted
the transport propagates the last such error to the caller. -/
theorem throttledGeminiFetch_terminal (responses : Nat → HttpResponse) :
    (∀ r : HttpResponse, respOk r = false → r.status ≠ 429 →
        fetchAttempt r = .error (.api r.status (r.body.getD .emptyObj)) ∧
        (FetchError.api r.status (r.body.getD .emptyObj)).statusOf
          = some r.status ∧
        (FetchError.api r.status (r.body.getD .emptyObj)).bodyOf
          = some (r.body.getD .emptyObj)) ∧
    ((∀ i ≤ geminiRetries,
        respOk (responses i) = false ∧ (responses i).status ≠ 429) →
      throttledGeminiFetch responses
        = (.error (.api (responses 3).status
            ((responses 3).body.getD .emptyObj)), 4, 4)) := by
  have hone : ∀ r : HttpResponse, respOk r = false → r.status ≠ 429 →
      fetchAttempt r = .error (.api r.status (r.body.getD .emptyObj)) := by
    intro r hok hne
    simp [fetchAttempt, hne, hok]
  refine ⟨fun r hok hne => ⟨hone r hok hne, rfl, rfl⟩, ?_⟩
  intro hall
  have ha0 := hone _ (hall 0 (by decide)).1 (hall 0 (by decide)).2
  have ha1 := hone _ (hall 1 (by decide)).1 (hall 1 (by decide)).2
  have ha2 := hone _ (hall 2 (by decide)).1 (hall 2 (by decide)).2
  have ha3 := hone _ (hall 3 (by decide)).1 (hall 3 (by decide)).2
  unfold throttledGeminiFetch geminiRetries
  simp [pRetryRun, ha0, ha1, ha2, ha3]

/-- C8, witness: a 404 whose body fails to parse throws an error
carrying status 404 and the empty object; when every attempt yields
HTTP 500 with parsed body `"boom"`, the exhausted transport propagates
the last error, carrying status 500 and that body, after four failed
attempts. -/
theorem throttledGeminiFetch_terminal_witness :
    fetchAttempt { status := 404, body := none }
        = .error (.api 404 .emptyObj) ∧
    (FetchError.api 404 JVal.emptyObj).statusOf = some 404 ∧
    throttledGeminiFetch responses500
        = (.error (.api 500 (.jstr "boom")), 4, 4) := by
  have h := throttledGeminiFetch_terminal responses500
  have h404 := h.1 { status := 404, body := none } (by decide) (by decide)
  have hterm := h.2 (fun i _ => ⟨by simp [responses500, respOk], by
    simp [responses500]⟩)
  exact ⟨h404.1, h404.2.1, hterm⟩

end EduFunds
